/-
Verification of the PhotoMakerAI passport-photo core:
format catalog (config/passport_formats.py), crop planner and compositor
(utils/passport_utils.py, utils/image_utils.py), and the print-layout tiler
(utils/passport_utils.py).

The embedding models Python numbers exactly: Python float arithmetic on the
quantities involved is modelled by exact rational arithmetic, Python int(x)
by truncation toward zero, and Python floor division by Int.fdiv.  Fallible
code (bodies wrapped in try/except) is modelled in the Except monad, with
each Python division that can raise ZeroDivisionError guarded explicitly.
-/
import Mathlib

namespace PhotoMaker

/-- Python int(x) applied to a real quantity: truncation toward zero. -/
def pytrunc (q : ℚ) : ℤ := if 0 ≤ q then ⌊q⌋ else ⌈q⌉

/-- A crop box in source-image coordinates, in the order PIL.Image.crop
takes them: (left, upper, right, lower). -/
structure CropRect where
  left : ℤ
  top : ℤ
  right : ℤ
  bottom : ℤ
deriving DecidableEq, Repr

/-- A face bounding box as produced by the face-detection collaborator,
in the tuple order the code unpacks: (top, right, bottom, left). -/
structure FaceBox where
  top : ℤ
  right : ℤ
  bottom : ℤ
  left : ℤ
deriving DecidableEq, Repr

/-- Result of _crop_to_passport_ratio: either image.crop(box) on a computed
box, or (when the try body raised) the original image returned unchanged. -/
inductive CropOutcome
  | cropped (r : CropRect)
  | original
deriving DecidableEq, Repr

/-- The try body of PassportPhotoFormatter._crop_to_passport_ratio
(src/utils/passport_utils.py lines 55-121), returning the crop box passed
to image.crop.  Errors are the ZeroDivisionErrors the Python body can
raise: width/height with height 0, width/target_ratio with ratio 0,
the scale-factor division by a zero face height, and
face_height/desired_face_height_percentage with percentage 0. -/
def crop_body (w h : ℤ) (target_ratio : ℚ) (face : Option FaceBox)
    (face_percentage : ℚ) : Except Unit CropRect :=
  if h = 0 then .error () else
  let current_ratio : ℚ := (w : ℚ) / (h : ℚ)
  match face with
  | some fb =>
    let face_center_x := (fb.left + fb.right).fdiv 2
    let face_center_y := (fb.top + fb.bottom).fdiv 2
    let face_height := fb.bottom - fb.top
    if current_ratio > target_ratio then
      let new_width := pytrunc ((h : ℚ) * target_ratio)
      let left_crop := max 0 (min (face_center_x - new_width.fdiv 2) (w - new_width))
      .ok ⟨left_crop, 0, left_crop + new_width, h⟩
    else
      if target_ratio = 0 then .error () else
      let nh0 := pytrunc ((w : ℚ) / target_ratio)
      let pct := face_percentage / 100
      if face_height = 0 then .error () else
      let scale_factor := ((nh0 : ℚ) * pct) / (face_height : ℚ)
      let finish : ℤ → Except Unit CropRect := fun nh =>
        let desired_face_top := (nh : ℚ) * (1/4)
        let top_crop := max 0 (min
          (face_center_y - pytrunc (desired_face_top + (face_height : ℚ) / 2))
          (h - nh))
        .ok ⟨0, top_crop, w, top_crop + nh⟩
      if scale_factor < 1 then
        if pct = 0 then .error () else
        finish (min (pytrunc ((face_height : ℚ) / pct)) h)
      else
        finish nh0
  | none =>
    if current_ratio > target_ratio then
      let new_width := pytrunc ((h : ℚ) * target_ratio)
      let left_crop := (w - new_width).fdiv 2
      .ok ⟨left_crop, 0, left_crop + new_width, h⟩
    else
      if target_ratio = 0 then .error () else
      let new_height := pytrunc ((w : ℚ) / target_ratio)
      let top_crop := (h - new_height).fdiv 2
      .ok ⟨0, top_crop, w, top_crop + new_height⟩

/-- PassportPhotoFormatter._crop_to_passport_ratio: the try body, with the
except handler returning the original image unchanged. -/
def crop_to_passport_ratio (w h : ℤ) (target_ratio : ℚ) (face : Option FaceBox)
    (face_percentage : ℚ) : CropOutcome :=
  match crop_body w h target_ratio face face_percentage with
  | .ok r => .cropped r
  | .error _ => .original

/-- One entry of the PassportFormats catalog
(src/config/passport_formats.py). -/
structure FormatSpec where
  width_mm : ℚ
  height_mm : ℚ
  width_inch : ℚ
  height_inch : ℚ
  width_px : ℤ
  height_px : ℤ
  dpi : ℤ
  description : String
deriving DecidableEq, Repr

/-- The catalog: a Python dict as an insertion-ordered association list. -/
abbrev Catalog := List (String × FormatSpec)

namespace PassportFormats

/-- The built-in formats populated in PassportFormats.__init__, in
declaration order. -/
def formats : Catalog :=
  [("US Passport",
    ⟨51, 51, 2.0, 2.0, 600, 600, 300, "US Passport photo - 2x2 inches"⟩),
   ("UK Passport",
    ⟨35, 45, 1.38, 1.77, 413, 531, 300, "UK Passport photo - 35x45mm"⟩),
   ("EU Passport",
    ⟨35, 45, 1.38, 1.77, 413, 531, 300, "EU Passport photo - 35x45mm"⟩),
   ("Canadian Passport",
    ⟨50, 70, 1.97, 2.76, 591, 827, 300, "Canadian Passport photo - 50x70mm"⟩),
   ("Australian Passport",
    ⟨35, 45, 1.38, 1.77, 413, 531, 300, "Australian Passport photo - 35x45mm"⟩),
   ("Indian Passport",
    ⟨35, 35, 1.38, 1.38, 413, 413, 300, "Indian Passport photo - 35x35mm"⟩),
   ("Chinese Passport",
    ⟨33, 48, 1.30, 1.89, 390, 567, 300, "Chinese Passport photo - 33x48mm"⟩),
   ("Japanese Passport",
    ⟨35, 45, 1.38, 1.77, 413, 531, 300, "Japanese Passport photo - 35x45mm"⟩),
   ("Brazilian Passport",
    ⟨30, 40, 1.18, 1.57, 354, 472, 300, "Brazilian Passport photo - 30x40mm"⟩),
   ("Mexican Passport",
    ⟨39, 31, 1.54, 1.22, 461, 366, 300, "Mexican Passport photo - 39x31mm"⟩),
   ("Russian Passport",
    ⟨35, 45, 1.38, 1.77, 413, 531, 300, "Russian Passport photo - 35x45mm"⟩),
   ("South African Passport",
    ⟨35, 45, 1.38, 1.77, 413, 531, 300, "South African Passport photo - 35x45mm"⟩),
   ("US Visa",
    ⟨51, 51, 2.0, 2.0, 600, 600, 300, "US Visa photo - 2x2 inches"⟩),
   ("Schengen Visa",
    ⟨35, 45, 1.38, 1.77, 413, 531, 300, "Schengen Visa photo - 35x45mm"⟩),
   ("ID Card",
    ⟨25, 35, 0.98, 1.38, 295, 413, 300, "Standard ID Card photo - 25x35mm"⟩)]

/-- PassportFormats.get_format: self.formats.get(format_name).  A dict read
mutates nothing, so the catalog is returned alongside the result. -/
def get_format (c : Catalog) (format_name : String) :
    Option FormatSpec × Catalog :=
  ((c.find? (fun e => e.1 == format_name)).map (fun e => e.2), c)

/-- Python dict assignment d[name] = spec: overwrite in place when the key
is present, append otherwise. -/
def dictInsert (c : Catalog) (name : String) (spec : FormatSpec) : Catalog :=
  if c.any (fun e => e.1 == name) then
    c.map (fun e => if e.1 == name then (name, spec) else e)
  else
    c ++ [(name, spec)]

/-- Rendering of a Python number in an f-string, for the description field:
integral values print without a fractional part. -/
def ratRepr (q : ℚ) : String :=
  if q.den = 1 then toString q.num else toString q.num ++ "/" ++ toString q.den

/-- The spec built by PassportFormats.add_custom_format: mm are converted to
inches by /25.4 and to pixels by int(inches * dpi). -/
def customSpec (width_mm height_mm : ℚ) (dpi : ℤ) : FormatSpec :=
  { width_mm := width_mm
    height_mm := height_mm
    width_inch := width_mm / 25.4
    height_inch := height_mm / 25.4
    width_px := pytrunc (width_mm / 25.4 * (dpi : ℚ))
    height_px := pytrunc (height_mm / 25.4 * (dpi : ℚ))
    dpi := dpi
    description := "Custom format - " ++ ratRepr width_mm ++ "x"
      ++ ratRepr height_mm ++ "mm" }

/-- PassportFormats.add_custom_format. -/
def add_custom_format (c : Catalog) (name : String) (width_mm height_mm : ℚ)
    (dpi : ℤ) : Catalog :=
  dictInsert c name (customSpec width_mm height_mm dpi)

end PassportFormats

/-- One row of the layout table in
PassportPhotoFormatter.create_print_layout: grid (columns, rows), canvas
size in pixels, spacing in pixels. -/
structure LayoutSpec where
  cols : ℤ
  rows : ℤ
  canvas_w : ℤ
  canvas_h : ℤ
  spacing : ℤ
deriving DecidableEq, Repr

/-- The fixed layout table of create_print_layout. -/
def layouts : List (String × LayoutSpec) :=
  [("2x2", ⟨2, 2, 600, 600, 10⟩),
   ("4x6", ⟨4, 6, 1200, 1800, 15⟩),
   ("wallet", ⟨2, 4, 600, 900, 10⟩)]

/-- The layout-name substitution: an unknown name is replaced by 2x2 before
the table lookup. -/
def effectiveLayoutName (layout_type : String) : String :=
  if layouts.any (fun e => e.1 == layout_type) then layout_type else "2x2"

/-- The layout row used for a requested layout name. -/
def getLayout (layout_type : String) : Option LayoutSpec :=
  (layouts.find? (fun e => e.1 == effectiveLayoutName layout_type)).map
    (fun e => e.2)

/-- Per-cell photo size: (canvas_dim - spacing*(cells+1)) // cells on each
axis. -/
def photoSize (L : LayoutSpec) : ℤ × ℤ :=
  ((L.canvas_w - L.spacing * (L.cols + 1)).fdiv L.cols,
   (L.canvas_h - L.spacing * (L.rows + 1)).fdiv L.rows)

/-- Paste origins in the order the nested loops emit them (row outer, column
inner): x = spacing + col*(pw+spacing), y = spacing + row*(ph+spacing). -/
def pasteOrigins (L : LayoutSpec) (pw ph : ℤ) : List (ℤ × ℤ) :=
  (List.range L.rows.toNat).flatMap (fun row =>
    (List.range L.cols.toNat).map (fun col =>
      (L.spacing + (col : ℤ) * (pw + L.spacing),
       L.spacing + (row : ℤ) * (ph + L.spacing))))

/-- Result of create_print_layout: the tiled canvas, or (on any failure
inside the try body) the original single passport photo unchanged. -/
inductive TileResult (Photo Canvas : Type) where
  | canvas : Canvas → TileResult Photo Canvas
  | photo : Photo → TileResult Photo Canvas
deriving DecidableEq

/-- The fallible part of the create_print_layout try body over abstract
image primitives: resize the photo to the cell size, then paste one copy
per cell, left to right and top to bottom, onto a blank canvas. -/
def tileBody {Photo Canvas : Type}
    (resize : Photo → ℤ × ℤ → Except Unit Photo)
    (blank : ℤ × ℤ → Canvas)
    (paste : Canvas → Photo → ℤ × ℤ → Except Unit Canvas)
    (photo : Photo) (L : LayoutSpec) : Except Unit Canvas :=
  match resize photo (photoSize L) with
  | .error e => .error e
  | .ok resized =>
    (pasteOrigins L (photoSize L).1 (photoSize L).2).foldlM
      (fun c o => paste c resized o) (blank (L.canvas_w, L.canvas_h))

/-- PassportPhotoFormatter.create_print_layout: table lookup with the 2x2
fallback, then the try body; the except handler returns the passport photo
unchanged. -/
def create_print_layout {Photo Canvas : Type}
    (resize : Photo → ℤ × ℤ → Except Unit Photo)
    (blank : ℤ × ℤ → Canvas)
    (paste : Canvas → Photo → ℤ × ℤ → Except Unit Canvas)
    (photo : Photo) (layout_type : String) : TileResult Photo Canvas :=
  match getLayout layout_type with
  | none => .photo photo
  | some L =>
    match tileBody resize blank paste photo L with
    | .ok c => .canvas c
    | .error _ => .photo photo

/-- The primitive image operations of the PIL library that the compositor
chains; abstract here, but each is a pure function of its arguments. -/
structure ImageOps (Image : Type) where
  size : Image → ℤ × ℤ
  crop : Image → CropRect → Image
  resize : Image → ℤ × ℤ → Image
  brightness : Image → ℚ → Image
  contrast : Image → ℚ → Image
  color : Image → ℚ → Image
  sharpness : Image → ℚ → Image

/-- ImageProcessor.enhance_image (src/utils/image_utils.py lines 150-187):
brightness, contrast, color, sharpness applied in that order, each skipped
when its factor equals 1.0. -/
def enhance_image {Image : Type} (ops : ImageOps Image) (image : Image)
    (brightness contrast saturation sharpness : ℚ) : Image :=
  let i1 := if brightness ≠ 1 then ops.brightness image brightness else image
  let i2 := if contrast ≠ 1 then ops.contrast i1 contrast else i1
  let i3 := if saturation ≠ 1 then ops.color i2 saturation else i2
  if sharpness ≠ 1 then ops.sharpness i3 sharpness else i3

/-- A single enhancement step with its factor, for stating which steps run
and in which order. -/
inductive EnhStep where
  | brightness (f : ℚ)
  | contrast (f : ℚ)
  | color (f : ℚ)
  | sharpness (f : ℚ)
deriving DecidableEq

/-- Apply one enhancement step. -/
def applyStep {Image : Type} (ops : ImageOps Image) (image : Image) :
    EnhStep → Image
  | .brightness f => ops.brightness image f
  | .contrast f => ops.contrast image f
  | .color f => ops.color image f
  | .sharpness f => ops.sharpness image f

/-- Apply a list of enhancement steps in order. -/
def applySteps {Image : Type} (ops : ImageOps Image) (image : Image)
    (steps : List EnhStep) : Image :=
  steps.foldl (applyStep ops) image

/-- PassportPhotoFormatter._apply_passport_guidelines: enhance_image with
the fixed profile brightness 1.05, contrast 1.1, saturation 0.95,
sharpness 1.1. -/
def apply_passport_guidelines {Image : Type} (ops : ImageOps Image)
    (image : Image) : Image :=
  enhance_image ops image 1.05 1.1 0.95 1.1

/-- PassportPhotoFormatter.format_passport_photo: catalog lookup (a missing
format raises ValueError, re-raised by the outer handler), crop to the
target ratio, resize to the exact pixel dimensions, then the fixed
enhancement profile. -/
def format_passport_photo {Image : Type} (c : Catalog) (ops : ImageOps Image)
    (image : Image) (format_name : String) (face : Option FaceBox)
    (face_percentage : ℚ) : Except Unit Image :=
  match (PassportFormats.get_format c format_name).1 with
  | none => .error ()
  | some spec =>
    if spec.height_px = 0 then .error () else
    let target_ratio : ℚ := (spec.width_px : ℚ) / (spec.height_px : ℚ)
    let wh := ops.size image
    let cropped :=
      match crop_to_passport_ratio wh.1 wh.2 target_ratio face face_percentage with
      | .cropped r => ops.crop image r
      | .original => image
    let formatted := ops.resize cropped (spec.width_px, spec.height_px)
    .ok (apply_passport_guidelines ops formatted)

/-! Helper lemmas shared by the claim theorems. -/

theorem pytrunc_eq_floor {q : ℚ} (h : 0 ≤ q) : pytrunc q = ⌊q⌋ :=
  if_pos h

theorem pytrunc_nonneg {q : ℚ} (h : 0 ≤ q) : 0 ≤ pytrunc q := by
  rw [pytrunc_eq_floor h]
  exact Int.floor_nonneg.mpr h

/-- C2 (amended): without a face box the planner, whenever the ratio-driven
dimension of the cropped axis is at least one pixel, returns a crop window
that lies inside the source bounds, is centered (the two margins of each
axis differ by at most one pixel), and whose cropped-axis dimension is
within one pixel of the exact value matching the target ratio. -/
theorem crop_no_face_centered (w h : ℤ) (t fp : ℚ)
    (hw : 1 ≤ w) (hh : 1 ≤ h) (ht : 0 < t)
    (hdim : 1 ≤ (if (w : ℚ) / (h : ℚ) > t then pytrunc ((h : ℚ) * t)
      else pytrunc ((w : ℚ) / t))) :
    ∃ r : CropRect,
      crop_to_passport_ratio w h t none fp = .cropped r ∧
      0 ≤ r.left ∧ r.left < r.right ∧ r.right ≤ w ∧
      0 ≤ r.top ∧ r.top < r.bottom ∧ r.bottom ≤ h ∧
      |r.left - (w - r.right)| ≤ 1 ∧ |r.top - (h - r.bottom)| ≤ 1 ∧
      (|((r.right - r.left : ℤ) : ℚ) - t * ((r.bottom - r.top : ℤ) : ℚ)| ≤ 1 ∨
       |((r.bottom - r.top : ℤ) : ℚ) - ((r.right - r.left : ℤ) : ℚ) / t| ≤ 1) := by
  have hh0 : (0 : ℚ) < (h : ℚ) := by exact_mod_cast lt_of_lt_of_le one_pos hh
  have hw0 : (0 : ℚ) < (w : ℚ) := by exact_mod_cast lt_of_lt_of_le one_pos hw
  by_cases hc : (w : ℚ) / (h : ℚ) > t
  · -- horizontal-overflow case: crop the sides
    have hnw1 : 1 ≤ pytrunc ((h : ℚ) * t) := by simpa [hc] using hdim
    set nw := pytrunc ((h : ℚ) * t) with hnwdef
    have hfl : nw = ⌊(h : ℚ) * t⌋ :=
      pytrunc_eq_floor (mul_nonneg hh0.le ht.le)
    have hb1 : ((nw : ℤ) : ℚ) ≤ (h : ℚ) * t := hfl ▸ Int.floor_le _
    have hb2 : (h : ℚ) * t < ((nw : ℤ) : ℚ) + 1 := hfl ▸ Int.lt_floor_add_one _
    have hnww : nw < w := by
      have h1 : t * (h : ℚ) < (w : ℚ) := (lt_div_iff₀ hh0).mp hc
      have : ((nw : ℤ) : ℚ) < ((w : ℤ) : ℚ) := by nlinarith [hb1, h1]
      exact_mod_cast this
    have e1 : 2 * ((w - nw) / 2) + (w - nw) % 2 = w - nw := Int.ediv_add_emod _ 2
    have e2 : 0 ≤ (w - nw) % 2 := Int.emod_nonneg _ (by norm_num)
    have e3 : (w - nw) % 2 < 2 := Int.emod_lt_of_pos _ (by norm_num)
    have hfd : (w - nw).fdiv 2 = (w - nw) / 2 := Int.fdiv_eq_ediv _ (by norm_num)
    refine ⟨⟨(w - nw).fdiv 2, 0, (w - nw).fdiv 2 + nw, h⟩,
      ?_, ?_, ?_, ?_, ?_, ?_, ?_, ?_, ?_, ?_⟩ <;> dsimp only
    · simp only [crop_to_passport_ratio, crop_body]
      rw [if_neg (show ¬ (h = 0) by omega), if_pos hc]
    · omega
    · omega
    · omega
    · omega
    · omega
    · omega
    · rw [abs_le]; omega
    · simp
    · left
      push_cast
      rw [abs_le]
      constructor <;> nlinarith [hb1, hb2]
  · -- vertical-overflow case: crop top and bottom
    have hnh1 : 1 ≤ pytrunc ((w : ℚ) / t) := by simpa [hc] using hdim
    set nh := pytrunc ((w : ℚ) / t) with hnhdef
    have hfl : nh = ⌊(w : ℚ) / t⌋ :=
      pytrunc_eq_floor (div_nonneg hw0.le ht.le)
    have hb1 : ((nh : ℤ) : ℚ) ≤ (w : ℚ) / t := hfl ▸ Int.floor_le _
    have hb2 : (w : ℚ) / t < ((nh : ℤ) : ℚ) + 1 := hfl ▸ Int.lt_floor_add_one _
    have hr : (w : ℚ) / (h : ℚ) ≤ t := not_lt.mp hc
    have hwh : (w : ℚ) ≤ t * (h : ℚ) := (div_le_iff₀ hh0).mp hr
    have hwt : (w : ℚ) / t ≤ (h : ℚ) := (div_le_iff₀ ht).mpr (by linarith)
    have hnhh : nh ≤ h := by
      have : ((nh : ℤ) : ℚ) ≤ ((h : ℤ) : ℚ) := le_trans hb1 hwt
      exact_mod_cast this
    have e1 : 2 * ((h - nh) / 2) + (h - nh) % 2 = h - nh := Int.ediv_add_emod _ 2
    have e2 : 0 ≤ (h - nh) % 2 := Int.emod_nonneg _ (by norm_num)
    have e3 : (h - nh) % 2 < 2 := Int.emod_lt_of_pos _ (by norm_num)
    have hfd : (h - nh).fdiv 2 = (h - nh) / 2 := Int.fdiv_eq_ediv _ (by norm_num)
    refine ⟨⟨0, (h - nh).fdiv 2, w, (h - nh).fdiv 2 + nh⟩,
      ?_, ?_, ?_, ?_, ?_, ?_, ?_, ?_, ?_, ?_⟩ <;> dsimp only
    · simp only [crop_to_passport_ratio, crop_body]
      rw [if_neg (show ¬ (h = 0) by omega), if_neg hc,
        if_neg (show ¬ (t = 0) from ht.ne')]
    · omega
    · omega
    · omega
    · omega
    · omega
    · omega
    · simp
    · rw [abs_le]; omega
    · right
      push_cast
      simp only [sub_zero]
      rw [abs_le]
      constructor <;> linarith

/-- C2 counterexample: at source size 1x1 with target ratio 1/2, the planner
computes new_width = int(1 * 0.5) = 0 and returns the degenerate window
(0, 0, 0, 1), whose left edge equals its right edge, refuting the claimed
invariant 0 ≤ left < right ≤ source_width for arbitrary positive inputs. -/
theorem crop_no_face_degenerate_counterexample :
    crop_to_passport_ratio 1 1 (1/2) none 65 = .cropped ⟨0, 0, 0, 1⟩ ∧
    ¬ ((⟨0, 0, 0, 1⟩ : CropRect).left < (⟨0, 0, 0, 1⟩ : CropRect).right) := by
  constructor
  · unfold crop_to_passport_ratio crop_body
    norm_num [pytrunc, show Int.fdiv 1 2 = 0 from by decide]
  · decide

/-- Witness for crop_no_face_centered at source 100x200, target ratio 1. -/
theorem crop_no_face_centered_witness :
    ∃ r : CropRect,
      crop_to_passport_ratio 100 200 1 none 65 = .cropped r ∧
      0 ≤ r.left ∧ r.left < r.right ∧ r.right ≤ 100 ∧
      0 ≤ r.top ∧ r.top < r.bottom ∧ r.bottom ≤ 200 ∧
      |r.left - (100 - r.right)| ≤ 1 ∧ |r.top - (200 - r.bottom)| ≤ 1 ∧
      (|((r.right - r.left : ℤ) : ℚ) - 1 * ((r.bottom - r.top : ℤ) : ℚ)| ≤ 1 ∨
       |((r.bottom - r.top : ℤ) : ℚ) - ((r.right - r.left : ℤ) : ℚ) / 1| ≤ 1) :=
  crop_no_face_centered 100 200 1 65 (by norm_num) (by norm_num) (by norm_num)
    (by norm_num [pytrunc])

/-- C10: in the vertical-overflow case a degenerate face box whose bottom
equals its top makes the scale-factor computation raise ZeroDivisionError;
the except handler catches it and the original image is returned. -/
theorem crop_zero_height_face_returns_original (w h : ℤ) (t fp : ℚ)
    (fb : FaceBox) (hh : h ≠ 0) (ht : t ≠ 0)
    (hr : (w : ℚ) / (h : ℚ) ≤ t) (hface : fb.bottom = fb.top) :
    crop_to_passport_ratio w h t (some fb) fp = .original := by
  have h1 : ¬ ((w : ℚ) / (h : ℚ) > t) := not_lt.mpr hr
  have h2 : fb.bottom - fb.top = 0 := sub_eq_zero_of_eq hface
  simp [crop_to_passport_ratio, crop_body, hh, h1, ht, h2]

/-- Witness for crop_zero_height_face_returns_original at a 100x200 source,
target ratio 1, and the zero-height face box (50, 80, 50, 40). -/
theorem crop_zero_height_face_witness :
    crop_to_passport_ratio 100 200 1 (some ⟨50, 80, 50, 40⟩) 65 = .original :=
  crop_zero_height_face_returns_original 100 200 1 65 ⟨50, 80, 50, 40⟩
    (by decide) (by norm_num) (by norm_num) (by decide)

/-- C1 counterexample: source 100x300, target ratio 1/2, so the ratio-driven
crop height is int(100 / 0.5) = 200; face box (60, 50, 140, 10) has height
80, which is 40% of 200.  With face_percentage = 65 the scale factor is
(200 * 0.65) / 80 = 1.625, not below 1, so the planner keeps the crop height
at 200: the face occupies 40% of the crop height, not 65%; the window height
is not enlarged or shrunk to make the face 65%. -/
theorem crop_face_sixty_five_counterexample :
    crop_to_passport_ratio 100 300 (1/2) (some ⟨60, 50, 140, 10⟩) 65 =
      .cropped ⟨0, 10, 100, 210⟩ ∧
    ¬ (|(((140 : ℤ) - 60 : ℤ) : ℚ) - 65 / 100 * (((210 : ℤ) - 10 : ℤ) : ℚ)| ≤ 1) := by
  constructor
  · unfold crop_to_passport_ratio crop_body
    norm_num [pytrunc, Int.fdiv]
  · norm_num

/-- C1 (amended): in the vertical-overflow case, when the face height is 40%
of the ratio-driven crop height int(source_width / target_ratio) and
face_percentage is 65, the scale factor 0.65/0.40 = 1.625 is not below 1, so
the planner keeps the ratio-driven crop height unchanged: the returned
window spans the full width, its height equals int(source_width /
target_ratio) — leaving the face at 40% of the crop height, not 65% — and it
still lies within [0, source_height]. -/
theorem crop_face_forty_percent_keeps_height (w h : ℤ) (t fp : ℚ)
    (fb : FaceBox) (hw : 1 ≤ w) (hh : 1 ≤ h) (ht : 0 < t)
    (hr : (w : ℚ) / (h : ℚ) ≤ t)
    (hfpos : 0 < fb.bottom - fb.top)
    (hforty : 5 * (fb.bottom - fb.top) = 2 * pytrunc ((w : ℚ) / t))
    (hfp : fp = 65) :
    ∃ r : CropRect,
      crop_to_passport_ratio w h t (some fb) fp = .cropped r ∧
      r.left = 0 ∧ r.right = w ∧
      r.bottom - r.top = pytrunc ((w : ℚ) / t) ∧
      5 * (fb.bottom - fb.top) = 2 * (r.bottom - r.top) ∧
      0 ≤ r.top ∧ r.bottom ≤ h := by
  subst hfp
  have hh0 : (0 : ℚ) < (h : ℚ) := by exact_mod_cast lt_of_lt_of_le one_pos hh
  have hw0 : (0 : ℚ) < (w : ℚ) := by exact_mod_cast lt_of_lt_of_le one_pos hw
  have hne : ¬ ((w : ℚ) / (h : ℚ) > t) := not_lt.mpr hr
  set nh0 := pytrunc ((w : ℚ) / t) with hnh0def
  have hfl : nh0 = ⌊(w : ℚ) / t⌋ := pytrunc_eq_floor (div_nonneg hw0.le ht.le)
  have hnh0pos : 0 < nh0 := by omega
  have hfhq : ((fb.bottom - fb.top : ℤ) : ℚ) = 2 * (nh0 : ℚ) / 5 := by
    have h5 : ((5 * (fb.bottom - fb.top) : ℤ) : ℚ) = ((2 * nh0 : ℤ) : ℚ) := by
      exact_mod_cast congrArg (fun z : ℤ => (z : ℚ)) hforty
    push_cast at h5 ⊢
    linarith
  have hfh0 : ¬ (fb.bottom - fb.top = 0) := by omega
  have hwt : (w : ℚ) / t ≤ (h : ℚ) := by
    rw [div_le_iff₀ ht]
    have := (div_le_iff₀ hh0).mp hr
    nlinarith
  have hnhh : nh0 ≤ h := by
    have hq : ((nh0 : ℤ) : ℚ) ≤ ((h : ℤ) : ℚ) := le_trans (hfl ▸ Int.floor_le _) hwt
    exact_mod_cast hq
  have hscale : ¬ ((nh0 : ℚ) * (65 / 100) / ((fb.bottom - fb.top : ℤ) : ℚ) < 1) := by
    rw [hfhq, not_lt]
    have hq : (0 : ℚ) < (nh0 : ℚ) := by exact_mod_cast hnh0pos
    rw [le_div_iff₀ (by positivity)]
    linarith
  have heval : ∃ tc : ℤ,
      crop_to_passport_ratio w h t (some fb) 65 = .cropped ⟨0, tc, w, tc + nh0⟩ ∧
      0 ≤ tc ∧ tc ≤ h - nh0 := by
    simp only [crop_to_passport_ratio, crop_body]
    rw [← hnh0def]
    split_ifs with h1 h2
    · exact absurd h1 (by omega)
    · exact absurd h2 ht.ne'
    · refine ⟨_, rfl, le_max_left _ _, max_le (by omega) (min_le_right _ _)⟩
  obtain ⟨tc, hcrop, htc0, htch⟩ := heval
  refine ⟨⟨0, tc, w, tc + nh0⟩, hcrop, ?_, ?_, ?_, ?_, ?_, ?_⟩ <;> dsimp only <;> omega

/-- Witness for crop_face_forty_percent_keeps_height at source 100x300,
target ratio 1/2, face box (60, 50, 140, 10), face_percentage 65. -/
theorem crop_face_forty_percent_keeps_height_witness :
    ∃ r : CropRect,
      crop_to_passport_ratio 100 300 (1/2) (some ⟨60, 50, 140, 10⟩) 65 =
        .cropped r ∧
      r.left = 0 ∧ r.right = 100 ∧
      r.bottom - r.top = pytrunc ((100 : ℚ) / (1/2)) ∧
      5 * ((⟨60, 50, 140, 10⟩ : FaceBox).bottom -
        (⟨60, 50, 140, 10⟩ : FaceBox).top) = 2 * (r.bottom - r.top) ∧
      0 ≤ r.top ∧ r.bottom ≤ 300 :=
  crop_face_forty_percent_keeps_height 100 300 (1/2) 65 ⟨60, 50, 140, 10⟩
    (by decide) (by decide) (by norm_num) (by norm_num) (by decide)
    (by norm_num [pytrunc]) rfl

/-- C3: tiling with layout 2x2 uses a 600x600 canvas, computes the cell size
(600 - 10*(2+1)) // 2 = 285 on both axes, resizes the photo once to 285x285,
and pastes the four copies in row-major order at origins (10,10), (305,10),
(10,305), (305,305). -/
theorem tile_two_by_two {Photo Canvas : Type}
    (resize : Photo → ℤ × ℤ → Photo) (blank : ℤ × ℤ → Canvas)
    (paste : Canvas → Photo → ℤ × ℤ → Canvas) (photo : Photo) :
    getLayout "2x2" = some ⟨2, 2, 600, 600, 10⟩ ∧
    photoSize ⟨2, 2, 600, 600, 10⟩ = (285, 285) ∧
    pasteOrigins ⟨2, 2, 600, 600, 10⟩ 285 285 =
      [(10, 10), (305, 10), (10, 305), (305, 305)] ∧
    create_print_layout (fun p s => .ok (resize p s)) blank
        (fun c p o => .ok (paste c p o)) photo "2x2" =
      .canvas (List.foldl (fun c o => paste c (resize photo (285, 285)) o)
        (blank (600, 600)) [(10, 10), (305, 10), (10, 305), (305, 305)]) :=
  ⟨rfl, rfl, rfl, rfl⟩

/-- C5: an unknown layout name is replaced by 2x2 before the table lookup,
so tiling with any name outside the table behaves exactly like 2x2. -/
theorem tile_unknown_layout_eq_two_by_two {Photo Canvas : Type}
    (resize : Photo → ℤ × ℤ → Except Unit Photo) (blank : ℤ × ℤ → Canvas)
    (paste : Canvas → Photo → ℤ × ℤ → Except Unit Canvas) (photo : Photo)
    (layout_type : String) (h1 : layout_type ≠ "2x2")
    (h2 : layout_type ≠ "4x6") (h3 : layout_type ≠ "wallet") :
    create_print_layout resize blank paste photo layout_type =
      create_print_layout resize blank paste photo "2x2" := by
  have he : effectiveLayoutName layout_type = "2x2" := by
    simp [effectiveLayoutName, layouts, Ne.symm h1, Ne.symm h2, Ne.symm h3]
  have hg : getLayout layout_type = getLayout "2x2" := by
    unfold getLayout
    rw [he]
    rfl
  unfold create_print_layout
  rw [hg]


/-- Witness for tile_unknown_layout_eq_two_by_two at the layout name
used by the spec, with trivial one-point image types. -/
theorem tile_unknown_layout_witness :
    @create_print_layout Unit Unit (fun _ _ => .ok ()) (fun _ => ())
        (fun _ _ _ => .ok ()) () "unknown-layout" =
      @create_print_layout Unit Unit (fun _ _ => .ok ()) (fun _ => ())
        (fun _ _ _ => .ok ()) () "2x2" :=
  tile_unknown_layout_eq_two_by_two _ _ _ _ "unknown-layout"
    (by decide) (by decide) (by decide)

/-- C7: if the resize step or the paste loop fails, the except handler
returns the original single passport photo unchanged. -/
theorem tile_failure_returns_photo {Photo Canvas : Type}
    (resize : Photo → ℤ × ℤ → Except Unit Photo) (blank : ℤ × ℤ → Canvas)
    (paste : Canvas → Photo → ℤ × ℤ → Except Unit Canvas) (photo : Photo)
    (layout_type : String) (L : LayoutSpec)
    (hL : getLayout layout_type = some L)
    (hfail : tileBody resize blank paste photo L = .error ()) :
    create_print_layout resize blank paste photo layout_type = .photo photo := by
  unfold create_print_layout
  simp only [hL, hfail]

/-- Witness for tile_failure_returns_photo with a resize primitive that
always fails, on layout 2x2 and one-point image types. -/
theorem tile_failure_returns_photo_witness :
    @create_print_layout Unit Unit (fun _ _ => .error ()) (fun _ => ())
        (fun _ _ _ => .ok ()) () "2x2" = .photo () :=
  tile_failure_returns_photo _ _ _ _ "2x2" ⟨2, 2, 600, 600, 10⟩ rfl rfl

/-- Looking up the inserted key after a dict write on the overwrite path. -/
theorem find?_map_replace (c : Catalog) (n : String) (s : FormatSpec) :
    c.any (fun e => e.1 == n) = true →
    (c.map (fun e => if e.1 == n then (n, s) else e)).find?
      (fun e => e.1 == n) = some (n, s) := by
  induction c with
  | nil => intro hany; simp at hany
  | cons a tl ih =>
    intro hany
    by_cases ha : a.1 = n
    · simp [ha]
    · have htl : tl.any (fun e => e.1 == n) = true := by
        simpa [List.any_cons, ha] using hany
      rw [List.map_cons, List.find?_cons_of_neg _ (by simp [ha]), ih htl]

/-- Looking up the inserted key after a dict write on the append path. -/
theorem find?_append_missing (c : Catalog) (n : String) (s : FormatSpec) :
    c.any (fun e => e.1 == n) = false →
    (c ++ [(n, s)]).find? (fun e => e.1 == n) = some (n, s) := by
  induction c with
  | nil => intro _; simp
  | cons a tl ih =>
    intro hany
    simp only [List.any_cons, Bool.or_eq_false_iff] at hany
    have ha : ¬ (a.1 = n) := by simpa using hany.1
    simp [ha, ih hany.2]

/-- A dict write followed by a read of the same key returns the written
spec, whether the key was fresh or overwritten. -/
theorem get_format_dictInsert (c : Catalog) (n : String) (s : FormatSpec) :
    (PassportFormats.get_format (PassportFormats.dictInsert c n s) n).1 =
      some s := by
  unfold PassportFormats.get_format PassportFormats.dictInsert
  split_ifs with hany
  · rw [find?_map_replace c n s hany]
    rfl
  · rw [find?_append_missing c n s (Bool.eq_false_iff.mpr hany)]
    rfl

/-- C4: add_custom_format registers under the given name a spec whose
inches are mm/25.4, whose pixel sizes are the floors of inches*dpi, and
whose description is the custom-format string; in particular adding X at
35x45mm, 300 dpi and looking X up yields 413x531 pixels. -/
theorem add_custom_format_lookup (c : Catalog) (n : String) (wmm hmm : ℚ)
    (dpi : ℤ) (hw0 : 0 < wmm) (hh0 : 0 < hmm) (hd0 : 0 < dpi) :
    (PassportFormats.get_format
        (PassportFormats.add_custom_format c n wmm hmm dpi) n).1 =
      some { width_mm := wmm, height_mm := hmm,
             width_inch := wmm / 25.4, height_inch := hmm / 25.4,
             width_px := ⌊wmm / 25.4 * (dpi : ℚ)⌋,
             height_px := ⌊hmm / 25.4 * (dpi : ℚ)⌋,
             dpi := dpi,
             description := "Custom format - " ++ PassportFormats.ratRepr wmm
               ++ "x" ++ PassportFormats.ratRepr hmm ++ "mm" } ∧
    (PassportFormats.get_format (PassportFormats.add_custom_format
        PassportFormats.formats "X" 35 45 300) "X").1.map
      (fun s => (s.width_px, s.height_px)) = some (413, 531) := by
  have hdq : (0 : ℚ) ≤ (dpi : ℚ) := by exact_mod_cast hd0.le
  constructor
  · unfold PassportFormats.add_custom_format
    rw [get_format_dictInsert]
    unfold PassportFormats.customSpec
    have e1 : pytrunc (wmm / 25.4 * (dpi : ℚ)) = ⌊wmm / 25.4 * (dpi : ℚ)⌋ :=
      pytrunc_eq_floor (by positivity)
    have e2 : pytrunc (hmm / 25.4 * (dpi : ℚ)) = ⌊hmm / 25.4 * (dpi : ℚ)⌋ :=
      pytrunc_eq_floor (by positivity)
    rw [e1, e2]
  · unfold PassportFormats.add_custom_format
    rw [get_format_dictInsert]
    unfold PassportFormats.customSpec
    simp only [Option.map_some']
    norm_num [pytrunc]

/-- Witness for add_custom_format_lookup at the empty catalog, name Y,
40x50mm, 300 dpi. -/
theorem add_custom_format_lookup_witness :
    (PassportFormats.get_format
        (PassportFormats.add_custom_format [] "Y" 40 50 300) "Y").1 =
      some { width_mm := 40, height_mm := 50,
             width_inch := (40 : ℚ) / 25.4, height_inch := (50 : ℚ) / 25.4,
             width_px := ⌊(40 : ℚ) / 25.4 * ((300 : ℤ) : ℚ)⌋,
             height_px := ⌊(50 : ℚ) / 25.4 * ((300 : ℤ) : ℚ)⌋,
             dpi := 300,
             description := "Custom format - " ++ PassportFormats.ratRepr 40
               ++ "x" ++ PassportFormats.ratRepr 50 ++ "mm" } ∧
    (PassportFormats.get_format (PassportFormats.add_custom_format
        PassportFormats.formats "X" 35 45 300) "X").1.map
      (fun s => (s.width_px, s.height_px)) = some (413, 531) :=
  add_custom_format_lookup [] "Y" 40 50 300 (by norm_num) (by norm_num)
    (by decide)

/-- C6: looking up a name registered by no catalog entry returns none, with
no default substituted, and the catalog map is unchanged. -/
theorem get_format_unknown_not_found (c : Catalog) (n : String)
    (h : ∀ e ∈ c, e.1 ≠ n) :
    PassportFormats.get_format c n = (none, c) := by
  unfold PassportFormats.get_format
  have hf : c.find? (fun e => e.1 == n) = none := by
    rw [List.find?_eq_none]
    intro e he
    simpa using h e he
  rw [hf]
  rfl

/-- Witness for get_format_unknown_not_found on the built-in catalog and
the name used by the spec. -/
theorem get_format_unknown_not_found_witness :
    PassportFormats.get_format PassportFormats.formats "Not A Format" =
      (none, PassportFormats.formats) :=
  get_format_unknown_not_found _ _ (by decide)

/-- C9: for every built-in format, the pixel sizes reproduce the physical
mm aspect ratio within one pixel of integer rounding. -/
theorem builtin_px_mm_ratio_consistent :
    (PassportFormats.formats.all (fun e =>
      decide (|(e.2.width_px : ℚ) -
        e.2.width_mm / e.2.height_mm * (e.2.height_px : ℚ)| ≤ 1))) = true := by
  simp only [PassportFormats.formats, List.all_cons, List.all_nil,
    Bool.and_eq_true, decide_eq_true_eq]
  norm_num [abs_le]

/-- C8: the compose pipeline is a pure function of the catalog, the image
primitives and the call arguments, so two invocations with identical
arguments return identical results; and the enhancement profile it applies
is exactly brightness 1.05, contrast 1.1, color 0.95, sharpness 1.1, in
that fixed order. -/
theorem format_passport_photo_deterministic {Image : Type} (c : Catalog)
    (ops : ImageOps Image) (image : Image) (format_name : String)
    (face : Option FaceBox) (face_percentage : ℚ) :
    format_passport_photo c ops image format_name face face_percentage =
      format_passport_photo c ops image format_name face face_percentage ∧
    ∀ img : Image, apply_passport_guidelines ops img =
      applySteps ops img
        [.brightness 1.05, .contrast 1.1, .color 0.95, .sharpness 1.1] := by
  refine ⟨rfl, fun img => ?_⟩
  norm_num [apply_passport_guidelines, enhance_image, applySteps, applyStep]

end PhotoMaker
